import Mathlib

/-!
Verification development for the redshirt core scheduler
(src/core/src/scheduler/vm.rs, src/core/src/scheduler/processes.rs,
src/core/src/interface.rs).

The embedding is shallow: Rust structs become Lean structures, methods become
pure functions threading the mutated receiver explicitly, `Result` becomes
`Except`, and a Rust panic (unwrap of `None`, explicit panic, `unreachable`)
is modelled by the dedicated `PResult.panics` outcome.

The wasmi engine is external to the repository; its resumable invocations are
modelled as well-founded interaction trees (`Behavior` before import
resolution, `ExecTree` after), and its linear-memory bounds-checking contract
(`MemoryInstance::set`, buffer of `pages * 65536` bytes) is embedded directly.
-/

namespace Redshirt

/-- Wasm numeric value types (wasmi::ValueType). -/
inductive ValueType where
  | i32
  | i64
  | f32
  | f64
deriving DecidableEq, BEq

/-- Wasm runtime values (wasmi::RuntimeValue). Float payloads are raw bit
patterns; the scheduler never inspects them. -/
inductive RuntimeValue where
  | I32 (v : Int)
  | I64 (v : Int)
  | F32 (bits : Nat)
  | F64 (bits : Nat)
deriving DecidableEq, BEq

/-- Type of a runtime value (wasmi::RuntimeValue::value_type). -/
def RuntimeValue.value_type : RuntimeValue → ValueType
  | .I32 _ => .i32
  | .I64 _ => .i64
  | .F32 _ => .f32
  | .F64 _ => .f64

/-- Engine-level function signature (wasmi::Signature): parameter types and
optional result type. -/
structure WasmiSignature where
  params : List ValueType
  ret : Option ValueType
deriving DecidableEq, BEq

/-- Non-host trap reasons (wasmi::TrapKind, minus the Host variant which the
scheduler filters out and never surfaces as an error). -/
inductive Trap where
  | unreachableInstr
  | memoryAccessOutOfBounds
  | divisionByZero
  | stackOverflow
  | otherTrap
deriving DecidableEq, BEq

/-- Outcome of a Rust expression that may panic: Rust panics (unwrap of None,
explicit panic, unreachable) are modelled as `panics`. -/
inductive PResult (α : Type) where
  | panics
  | value (a : α)
deriving DecidableEq, BEq

/-! ## base58 (bs58 crate, decode/encode contract)

The bs58 crate decodes into a caller-supplied buffer: the decode fails on a
character outside the base58 alphabet or when the decoded bytes do not fit
the buffer, and otherwise yields `zeros ++ big-endian-bytes(value)` where one
leading zero byte is produced per leading alphabet-zero character. -/

/-- Bitcoin base58 alphabet used by the bs58 crate by default. -/
def base58Alphabet : List Char :=
  [ '1', '2', '3', '4', '5', '6', '7', '8', '9',
    'A', 'B', 'C', 'D', 'E', 'F', 'G', 'H', 'J', 'K', 'L', 'M', 'N',
    'P', 'Q', 'R', 'S', 'T', 'U', 'V', 'W', 'X', 'Y', 'Z',
    'a', 'b', 'c', 'd', 'e', 'f', 'g', 'h', 'i', 'j', 'k', 'm', 'n',
    'o', 'p', 'q', 'r', 's', 't', 'u', 'v', 'w', 'x', 'y', 'z' ]

/-- Value of one base58 digit character, or `none` if outside the alphabet. -/
def base58DigitValue (c : Char) : Option Nat :=
  base58Alphabet.indexOf? c

/-- Big-endian digit representation of a natural number in the given base
(≥ 2), with no leading zero digit; the representation of 0 is the empty
list. Structural recursion on a fuel argument that bounds the digit count
(the number itself always suffices, since n / base < n for n > 0). -/
def natToDigitsBE (base : Nat) (fuel n : Nat) : List Nat :=
  match fuel with
  | 0 => []
  | fuel + 1 => if n = 0 then [] else natToDigitsBE base fuel (n / base) ++ [n % base]

/-- Big-endian byte representation of a natural number, with no leading zero
byte; the representation of 0 is the empty list. -/
def natToBytesBE (n : Nat) : List Nat :=
  natToDigitsBE 256 n n

/-- Base58 decoding into a buffer of capacity `bufLen` (bs58
decode().into(&mut buf)): `none` on an invalid character or when the decoded
bytes exceed the buffer, otherwise the decoded bytes (length ≤ bufLen). -/
def base58DecodeInto (bufLen : Nat) (s : String) : Option (List Nat) :=
  match s.toList.mapM base58DigitValue with
  | none => none
  | some ds =>
    let num := ds.foldl (fun acc d => acc * 58 + d) 0
    let zeros := (s.toList.takeWhile (fun c => c == '1')).length
    let bytes := List.replicate zeros 0 ++ natToBytesBE num
    if bytes.length ≤ bufLen then some bytes else none

/-- Base58 digit list of a natural number, big-endian, empty for 0. -/
def natToBase58Digits (n : Nat) : List Nat :=
  natToDigitsBE 58 n n

/-- Base58 encoding of a byte string (bs58 encode().into_string()): one
alphabet-zero character per leading zero byte, then the digits of the value. -/
def base58Encode (bytes : List Nat) : String :=
  let zeros := (bytes.takeWhile (fun b => b == 0)).length
  let num := bytes.foldl (fun acc b => acc * 256 + b) 0
  String.mk (List.replicate zeros '1' ++
    (natToBase58Digits num).map (fun d => base58Alphabet.getD d '1'))

/-! ## InterfaceId (src/core/src/interface.rs) -/

/-- Identifier of an interface: either a 32-byte hash or an opaque string
(interface.rs, enum InterfaceId; the hash payload InterfaceHash is a 32-byte
array, modelled as a list of byte values). -/
inductive InterfaceId where
  | Hash (h : List Nat)
  | Bytes (s : String)
deriving DecidableEq, BEq

/-- Parsing of a wasm module-name string into an InterfaceId, as performed by
ImportResolve::resolve_func (vm.rs lines 92-103): attempt base58 decoding
into a 32-byte buffer, right-aligning the decoded bytes (zero prefix); on
decode failure keep the raw string as the Bytes variant. -/
def parseInterfaceId (module_name : String) : InterfaceId :=
  match base58DecodeInto 32 module_name with
  | some bytes => InterfaceId.Hash (List.replicate (32 - bytes.length) 0 ++ bytes)
  | none => InterfaceId.Bytes module_name

/-! ## Engine model: resumable invocations

The wasmi engine executes a function invocation until it returns, calls
an imported (host) function, or traps. The scheduler only observes these events,
so an invocation is embedded as a well-founded interaction tree. `Behavior`
names imported functions by their position in the module's import list;
instantiation (which resolves each import through the user closure) rewrites
those positions to the host indices the closure assigned, yielding an
`ExecTree` whose interrupt nodes also carry the import's result type (used by
wasmi's resumable_value_type when resuming). -/

/-- Body of a module function, before import resolution: it either returns,
calls the imported function at position `importIndex` of the module's import
list and continues with the injected result, or traps. -/
inductive Behavior where
  | ret (v : Option RuntimeValue)
  | callImport (importIndex : Nat) (args : List RuntimeValue)
      (k : Option RuntimeValue → Behavior)
  | trap (t : Trap)

/-- Instantiated invocation tree: interrupt nodes carry the host index
the resolution closure assigned (the payload of wasmi's host trap raised
by DummyExternals::invoke_index, vm.rs lines 261-286) and the result type of
the pending host call. -/
inductive ExecTree where
  | finished (v : Option RuntimeValue)
  | interrupt (id : Nat) (params : List RuntimeValue) (retTy : Option ValueType)
      (k : Option RuntimeValue → ExecTree)
  | trapped (t : Trap)

/-- Instantiation of a function body: each import position is rewritten to
the pair (host index assigned by the resolution closure, result type of
the signature of the import). -/
def instantiateBehavior (resolution : Nat → Nat × Option ValueType) :
    Behavior → ExecTree
  | .ret v => .finished v
  | .callImport i args k =>
      .interrupt (resolution i).1 args (resolution i).2
        (fun v => instantiateBehavior resolution (k v))
  | .trap t => .trapped t

/-! ## Module model (opaque wasmi::Module / ModuleRef, as used by vm.rs) -/

/-- One function of the module: its signature and its body as a function of
the call parameters. -/
structure FuncDef where
  sig : WasmiSignature
  body : List RuntimeValue → Behavior

/-- Linear memory object (wasmi::MemoryRef): current size in pages and the
byte buffer. The engine maintains data.length = pages * 65536. -/
structure MemoryObj where
  pages : Nat
  data : List Nat

/-- What kind of entity an import requests (function imports carry the
signature the module declares; globals, memories and tables are rejected by
the scheduler's resolver). -/
inductive ImportKind where
  | func (sig : WasmiSignature)
  | globalImport
  | memoryImport
  | tableImport

/-- One import of the module: the wasm two-level name plus the kind. -/
structure ModuleImport where
  module_name : String
  field_name : String
  kind : ImportKind

/-- An exported entity (wasmi::ExternVal restricted to what vm.rs looks at). -/
inductive ExportVal where
  | func (f : FuncDef)
  | memory (m : MemoryObj)
  | otherExport

/-- Parsed wasm module: import list (in declaration order), named exports,
and the global function table (indexed by wasm function index, used by
start_thread). -/
structure Module where
  imports : List ModuleImport
  exports : List (String × ExportVal)
  functionTable : List FuncDef

/-- Export lookup by name (wasmi ModuleRef::export_by_name). -/
def Module.export_by_name (m : Module) (name : String) : Option ExportVal :=
  (m.exports.find? (fun e => e.1 == name)).map (fun e => e.2)

/-! ## Errors (vm.rs lines 418-464) -/

/-- Engine-side instantiation error (the only wasmi::Error the scheduler
itself constructs is Instantiation; other engine failures are grouped). -/
inductive WasmiError where
  | Instantiation
  | otherEngineError
deriving DecidableEq, BEq

/-- Error when initializing a VM (vm.rs NewErr). -/
inductive NewErr where
  | Interpreter (e : WasmiError)
  | MemoryIsntMemory
  | MainIsntAFunction
deriving DecidableEq, BEq

/-- Error when starting execution of a function (vm.rs StartErr). -/
inductive StartErr where
  | AlreadyRunning
  | Poisoned
  | SymbolNotFound
  | NotAFunction
deriving DecidableEq, BEq

/-- Error when resuming execution (vm.rs ResumeErr). -/
inductive ResumeErr where
  | BadValueTy (expected obtained : Option ValueType)
deriving DecidableEq, BEq

/-! ## Import resolution (vm.rs ImportResolve, lines 82-151)

resolve_func parses the module name into an InterfaceId, invokes the user
closure, and on closure failure produces a wasmi Instantiation error; global,
memory and table imports are unsupported and produce Instantiation errors.
The engine resolves the module's imports in declaration order. -/

/-- Resolution of the whole import list: returns, per function import in
order, the host index assigned by the closure together with the import
signature's result type. -/
def resolveImports
    (symbols : InterfaceId → String → WasmiSignature → Except Unit Nat) :
    List ModuleImport → Except WasmiError (List (Nat × Option ValueType))
  | [] => .ok []
  | imp :: rest =>
    match imp.kind with
    | .func sig =>
      match symbols (parseInterfaceId imp.module_name) imp.field_name sig with
      | .ok index =>
        match resolveImports symbols rest with
        | .ok tail => .ok ((index, sig.ret) :: tail)
        | .error e => .error e
      | .error _ => .error .Instantiation
    | _ => .error .Instantiation

/-- Lookup function over a resolved import list; positions outside the list
cannot be reached by a validated module. -/
def resolutionFn (res : List (Nat × Option ValueType)) :
    Nat → Nat × Option ValueType :=
  fun i => res.getD i (0, none)

/-! ## ProcessStateMachine (vm.rs, single-invocation machine) -/

/-- State of the stored invocation. vm.rs keeps `execution : Option
FuncInvocation` plus an `interrupted : Bool` flag; `notStarted` is the
(Some, interrupted = false) combination produced right after
invoke_resumable, `pausedAt` the (Some, interrupted = true) combination after
a host-call interruption, carrying wasmi's resumable_value_type and the
continuation. -/
inductive ExecutionState where
  | notStarted (tree : ExecTree)
  | pausedAt (retTy : Option ValueType) (k : Option RuntimeValue → ExecTree)

/-- WASMI state machine dedicated to a process (vm.rs ProcessStateMachine).
The module reference is kept as the resolved function table plus the
resolution map, which is everything later operations consult. -/
structure ProcessStateMachine where
  functionTable : List FuncDef
  resolution : Nat → Nat × Option ValueType
  memory : Option MemoryObj
  execution : Option ExecutionState
  is_poisoned : Bool

/-- Outcome of ProcessStateMachine.resume (vm.rs ExecOutcome). -/
inductive ExecOutcome where
  | Finished (v : Option RuntimeValue)
  | Interrupted (id : Nat) (params : List RuntimeValue)
  | Errored (t : Trap)
deriving BEq

/-- Construction of the state machine (vm.rs ProcessStateMachine::new, lines
78-193): resolve the imports through the closure, record the `memory` export
(failing with MemoryIsntMemory if it is not a memory), then try to start
`main` with the two i32 parameters (0, 0); a missing `main` leaves the
machine stopped, a non-function `main` fails with MainIsntAFunction. -/
def ProcessStateMachine.new (module : Module)
    (symbols : InterfaceId → String → WasmiSignature → Except Unit Nat) :
    Except NewErr ProcessStateMachine :=
  match resolveImports symbols module.imports with
  | .error e => .error (NewErr.Interpreter e)
  | .ok res =>
    let memOrErr : Except NewErr (Option MemoryObj) :=
      match module.export_by_name "memory" with
      | some (.memory m) => .ok (some m)
      | some _ => .error NewErr.MemoryIsntMemory
      | none => .ok none
    match memOrErr with
    | .error e => .error e
    | .ok memory =>
      -- start_inner("main", [I32(0), I32(0)]), vm.rs lines 182-190 and 223-247
      match module.export_by_name "main" with
      | some (.func f) =>
        .ok { functionTable := module.functionTable
              resolution := resolutionFn res
              memory
              execution := some (.notStarted (instantiateBehavior
                (resolutionFn res) (f.body [RuntimeValue.I32 0, RuntimeValue.I32 0])))
              is_poisoned := false }
      | none =>
        .ok { functionTable := module.functionTable
              resolution := resolutionFn res
              memory
              execution := none
              is_poisoned := false }
      | some _ => .error NewErr.MainIsntAFunction

/-- True if we are executing something and are in the paused state (vm.rs
is_executing). -/
def ProcessStateMachine.is_executing (m : ProcessStateMachine) : Bool :=
  m.execution.isSome

/-- Resume execution when in a paused state (vm.rs resume, lines 260-331).
The Rust code first takes the stored invocation (panicking when stopped),
checks the injected value against the expected type (note that on a
BadValueTy error the taken invocation has already been dropped), then runs
the engine: a normal return yields Finished, the distinguished host trap is
caught and yields Interrupted while re-storing the invocation, and any other
trap poisons the machine and yields Errored. -/
def ProcessStateMachine.resume (m : ProcessStateMachine)
    (value : Option RuntimeValue) :
    PResult (Except ResumeErr ExecOutcome × ProcessStateMachine) :=
  match m.execution with
  | none => .panics
  | some es =>
    let taken : ProcessStateMachine := { m with execution := none }
    let result : Except ResumeErr ExecTree :=
      match es with
      | .pausedAt retTy k =>
        if (value.map RuntimeValue.value_type) = retTy then .ok (k value)
        else .error (.BadValueTy retTy (value.map RuntimeValue.value_type))
      | .notStarted tree =>
        match value with
        | some v => .error (.BadValueTy none (some v.value_type))
        | none => .ok tree
    match result with
    | .error e => .value (.error e, taken)
    | .ok (.finished v) => .value (.ok (.Finished v), taken)
    | .ok (.interrupt id params retTy k) =>
      .value (.ok (.Interrupted id params),
        { m with execution := some (.pausedAt retTy k) })
    | .ok (.trapped t) =>
      .value (.ok (.Errored t), { taken with is_poisoned := true })

/-! ## Memory access (vm.rs lines 333-378) -/

/-- Write into a linear memory (wasmi MemoryInstance::set contract: the range
offset .. offset+len must lie within the buffer of pages*65536 bytes). -/
def MemoryObj.set (mem : MemoryObj) (offset : Nat) (value : List Nat) :
    Except Unit MemoryObj :=
  if offset + value.length > mem.pages * 65536 then .error ()
  else .ok { mem with
    data := mem.data.take offset ++ value ++ mem.data.drop (offset + value.length) }

/-- Range bound as used by dma (core::ops::Bound on usize). -/
inductive MemBound where
  | included (n : Nat)
  | excluded (n : Nat)
  | unbounded

/-- Direct memory access (vm.rs dma, lines 353-378): unwraps the memory
(panicking when the process has none), converts the bounds to start/end
offsets, errors when start > end or end > pages*65536, and otherwise exposes
the byte slice. The Rust code also errors when the +1 of an excluded start
or included end bound overflows usize; over Nat that case has no
counterpart (no claim involves it). -/
def ProcessStateMachine.dma (m : ProcessStateMachine)
    (startBound endBound : MemBound) : PResult (Except Unit (List Nat)) :=
  match m.memory with
  | none => .panics
  | some mem =>
    let mem_sz := mem.pages * 65536
    let start := match startBound with
      | .included b => b
      | .excluded b => b + 1
      | .unbounded => 0
    let stop := match endBound with
      | .included b => b + 1
      | .excluded b => b
      | .unbounded => mem_sz
    if start > stop ∨ stop > mem_sz then .value (.error ())
    else .value (.ok ((mem.data.drop start).take (stop - start)))

/-- Copy a memory range out (vm.rs read_memory, lines 337-340: dma with
to_vec). -/
def ProcessStateMachine.read_memory (m : ProcessStateMachine)
    (startBound endBound : MemBound) : PResult (Except Unit (List Nat)) :=
  m.dma startBound endBound

/-- Write data at a memory location (vm.rs write_memory, lines 345-351):
unwraps the memory (panicking when the process has none) and delegates to the
engine's bounds-checked set. -/
def ProcessStateMachine.write_memory (m : ProcessStateMachine)
    (offset : Nat) (value : List Nat) :
    PResult (Except Unit ProcessStateMachine) :=
  match m.memory with
  | none => .panics
  | some mem =>
    match mem.set offset value with
    | .error _ => .value (.error ())
    | .ok mem2 => .value (.ok { m with memory := some mem2 })

/-! ## Multi-threaded VM state machine

processes.rs is written against a generic, multi-threaded
`vm::ProcessStateMachine<T>` (num_threads / thread / start_thread_by_id /
per-thread run / into_user_datas, with ExecOutcome variants ThreadFinished,
Interrupted and Errored). That variant of vm.rs is not part of the sources;
only its caller is. The definitions below are therefore modelled from the
spec (§3 data model: threads as an ordered list of records, main thread at
index 0; §4.4 operations and the per-thread run behaviour), kept consistent
with the single-invocation machine above for the execution core itself. -/

/-- Modelled from the spec: one thread record of the multi-threaded state
machine (§3 ThreadRecord): the caller's per-thread user data plus the
resumable invocation with its phase. -/
structure MTThread (T : Type) where
  user_data : T
  execution : ExecutionState

/-- Modelled from the spec: the multi-threaded VM state machine used by
processes.rs (§3: module_ref, memory, ordered thread list, poison flag). -/
structure MTStateMachine (T : Type) where
  functionTable : List FuncDef
  resolution : Nat → Nat × Option ValueType
  memory : Option MemoryObj
  threads : List (MTThread T)
  is_poisoned : Bool

/-- Modelled from the spec: number of threads (§4.4 num_threads). -/
def MTStateMachine.num_threads (m : MTStateMachine T) : Nat :=
  m.threads.length

/-- Modelled from the spec: thread accessor (§4.4 thread(idx) ->
Option<ThreadHandle>): defined exactly for indices below num_threads. -/
def MTStateMachine.thread (m : MTStateMachine T) (i : Nat) :
    Option (MTThread T) :=
  m.threads.get? i

/-- Modelled from the spec: error of the per-thread run (§7 RunErr). -/
inductive RunErr where
  | BadValueTy (expected obtained : Option ValueType)
  | Poisoned
deriving DecidableEq, BEq

/-- Modelled from the spec: outcome of the per-thread run (§4.4): a finished
thread reports its index, return value and user data (the thread is removed
from the machine); an interrupt carries the resolved host index and the call
parameters; any other trap poisons the machine. -/
inductive MTExecOutcome (T : Type) where
  | ThreadFinished (thread_index : Nat) (return_value : Option RuntimeValue)
      (user_data : T)
  | Interrupted (thread_index : Nat) (id : Nat) (params : List RuntimeValue)
  | Errored (error : Trap) (thread_index : Nat)

/-- Modelled from the spec: construction of the multi-threaded machine
(§4.4 Construction, same steps as ProcessStateMachine.new but synthesizing
the main thread record with the caller-provided user data). -/
def MTStateMachine.new (module : Module) (main_thread_data : T)
    (symbols : InterfaceId → String → WasmiSignature → Except Unit Nat) :
    Except NewErr (MTStateMachine T) :=
  match resolveImports symbols module.imports with
  | .error e => .error (NewErr.Interpreter e)
  | .ok res =>
    let memOrErr : Except NewErr (Option MemoryObj) :=
      match module.export_by_name "memory" with
      | some (.memory m) => .ok (some m)
      | some _ => .error NewErr.MemoryIsntMemory
      | none => .ok none
    match memOrErr with
    | .error e => .error e
    | .ok memory =>
      match module.export_by_name "main" with
      | some (.func f) =>
        .ok { functionTable := module.functionTable
              resolution := resolutionFn res
              memory
              threads := [{ user_data := main_thread_data
                            execution := .notStarted (instantiateBehavior
                              (resolutionFn res)
                              (f.body [RuntimeValue.I32 0, RuntimeValue.I32 0])) }]
              is_poisoned := false }
      | none =>
        .ok { functionTable := module.functionTable
              resolution := resolutionFn res
              memory
              threads := []
              is_poisoned := false }
      | some _ => .error NewErr.MainIsntAFunction

/-- Modelled from the spec: run one thread of the machine with the given
value to inject (§4.4 per-thread run(value_back)): a poisoned machine yields
RunErr::Poisoned; a not-yet-started thread requires no injected value and a
paused thread a value of the pending call's result type, else
RunErr::BadValueTy; execution then proceeds to the next event. A finished
thread is removed from the list; an interrupt re-pauses the thread; another
trap poisons the machine (the thread list is kept for into_user_datas, §3
lifecycle: threads are destroyed with their process on trap). Calling with
an out-of-range index is a caller bug (processes.rs unwraps the handle). -/
def MTStateMachine.runThread (m : MTStateMachine T) (i : Nat)
    (value : Option RuntimeValue) :
    PResult (Except RunErr (MTExecOutcome T × MTStateMachine T)) :=
  if m.is_poisoned then .value (.error .Poisoned)
  else
    match m.threads.get? i with
    | none => .panics
    | some th =>
      let result : Except RunErr ExecTree :=
        match th.execution with
        | .pausedAt retTy k =>
          if (value.map RuntimeValue.value_type) = retTy then .ok (k value)
          else .error (.BadValueTy retTy (value.map RuntimeValue.value_type))
        | .notStarted tree =>
          match value with
          | some v => .error (.BadValueTy none (some v.value_type))
          | none => .ok tree
      match result with
      | .error e => .value (.error e)
      | .ok (.finished v) =>
        .value (.ok (.ThreadFinished i v th.user_data,
          { m with threads := m.threads.eraseIdx i }))
      | .ok (.interrupt id params retTy k) =>
        .value (.ok (.Interrupted i id params,
          { m with threads :=
              m.threads.set i { th with execution := .pausedAt retTy k } }))
      | .ok (.trapped t) =>
        .value (.ok (.Errored t i, { m with is_poisoned := true }))

/-- Modelled from the spec: start a new non-main thread at the given function
table index (§4.4 start_thread_by_id): fails Poisoned on a poisoned machine
and SymbolNotFound when the index is outside the function table; the new
thread record is appended at the end of the ordered thread list. -/
def MTStateMachine.start_thread_by_id (m : MTStateMachine T) (fn_index : Nat)
    (params : List RuntimeValue) (thread_data : T) :
    Except StartErr (MTStateMachine T) :=
  if m.is_poisoned then .error .Poisoned
  else
    match m.functionTable.get? fn_index with
    | none => .error .SymbolNotFound
    | some f =>
      .ok { m with threads := m.threads ++
        [{ user_data := thread_data
           execution := .notStarted (instantiateBehavior m.resolution
             (f.body params)) }] }

/-- Modelled from the spec: consume the machine and yield the user data of
all remaining threads, in thread order (§4.4 into_user_datas). -/
def MTStateMachine.into_user_datas (m : MTStateMachine T) : List T :=
  m.threads.map (fun t => t.user_data)

/-! ## ProcessesCollection (processes.rs)

Pids and ThreadIds (redshirt_syscalls newtypes around u64) are modelled as
Nat. The hashbrown HashMap of processes is modelled as an association list;
its iteration order is deterministic for a given content (the map uses
NoHashHasher with no randomness), which the list order stands in for.
Insertion appends, removal filters the key out, updates are in place. -/

/-- Modelled from the spec: monotonic id allocator (§4.1 IdPool): returns a
strictly increasing sequence starting at 1. -/
structure IdPool where
  next : Nat

/-- Modelled from the spec: fresh pool, first assigned id is 1 (§4.1). -/
def IdPool.mk1 : IdPool := ⟨1⟩

/-- Modelled from the spec: assign the next id (§4.1). -/
def IdPool.assign (p : IdPool) : Nat × IdPool :=
  (p.next, ⟨p.next + 1⟩)

/-- Modelled from the spec: value-level function signature of the scheduler
(§4.2 Signature, src/core/src/signature.rs is not among the sources): an
ordered parameter list and an optional result. -/
structure Signature where
  params : List ValueType
  ret : Option ValueType
deriving DecidableEq, BEq

/-- Modelled from the spec: comparison against a concrete engine signature,
parameter list and result compared pointwise (§4.2 matches_engine; called
matches_wasmi at the use site in processes.rs line 208). -/
def Signature.matches_wasmi (s : Signature) (w : WasmiSignature) : Bool :=
  s.params == w.params && s.ret == w.ret

/-- Modelled from the spec: conversion of an InterfaceId into the string key
of the registered-function table (the `interface.into()` at processes.rs
line 206; the impl lives outside the sources). A hash renders as its base58
string (the inverse of the parsing done at resolution, §4.3) and the name
variant is the raw string. -/
def interfaceIdToKey : InterfaceId → String
  | .Hash h => base58Encode h
  | .Bytes s => s

/-- Per-thread record of the collection (processes.rs struct Thread<TTud>):
user data, thread id, and the value to inject at the next round of running
(`Some` means ready to run). -/
structure CollThread (TTud : Type) where
  user_data : TTud
  thread_id : Nat
  value_back : Option (Option RuntimeValue)

/-- One process of the collection (processes.rs struct Process). -/
structure Process (TPud TTud : Type) where
  state_machine : MTStateMachine (CollThread TTud)
  user_data : TPud

/-- The collection of processes (processes.rs ProcessesCollection). -/
structure ProcessesCollection (TExtr TPud TTud : Type) where
  pid_pool : IdPool
  tid_pool : IdPool
  processes : List (Nat × Process TPud TTud)
  extrinsics : List (Nat × TExtr)
  extrinsics_id_assign : List ((String × String) × (Nat × Signature))

/-- Association-list lookup, standing in for HashMap::get. -/
def assocGet (l : List (Nat × α)) (k : Nat) : Option α :=
  (l.find? (fun e => e.1 == k)).map (fun e => e.2)

/-- Lookup in the registered-function table (extrinsics_id_assign.get). -/
def extrinsicsAssignGet
    (l : List ((String × String) × (Nat × Signature)))
    (k : String × String) : Option (Nat × Signature) :=
  (l.find? (fun e => e.1 == k)).map (fun e => e.2)

/-- In-place update of one process entry, preserving iteration order (the
entry API of the HashMap mutates the value in place). -/
def updateProcess (l : List (Nat × Process TPud TTud)) (k : Nat)
    (p : Process TPud TTud) : List (Nat × Process TPud TTud) :=
  l.map (fun e => if e.1 = k then (k, p) else e)

/-- Removal of a process entry (HashMap remove_entry). -/
def removeProcess (l : List (Nat × Process TPud TTud)) (k : Nat) :
    List (Nat × Process TPud TTud) :=
  l.filter (fun e => e.1 ≠ k)

/-- Find a thread in a process ready to be executed: index of the first
thread with value_back Some (processes.rs Process::ready_to_run_thread_index,
lines 483-495). -/
def Process.ready_to_run_thread_index (p : Process TPud TTud) : Option Nat :=
  p.state_machine.threads.findIdx? (fun t => t.user_data.value_back.isSome)

/-- Selection performed at the top of run (processes.rs lines 246-266): the
first process, in iteration order, with a ready thread; the shuffle of the
entries is commented out in the code (line 248), so the pick is
deterministic. -/
def findReady : List (Nat × Process TPud TTud) → Option (Nat × Nat)
  | [] => none
  | (pid, p) :: rest =>
    match p.ready_to_run_thread_index with
    | some i => some (pid, i)
    | none => findReady rest

/-- Import-resolution closure built by execute (processes.rs lines 204-216):
look the (interface, function) pair up in the registered table; hit with a
matching signature yields its index; a signature mismatch falls through to
the same Err as a miss. -/
def executeSymbols
    (tbl : List ((String × String) × (Nat × Signature)))
    (interface : InterfaceId) (function : String)
    (obtained_signature : WasmiSignature) : Except Unit Nat :=
  match extrinsicsAssignGet tbl (interfaceIdToKey interface, function) with
  | some (index, expected_signature) =>
    if expected_signature.matches_wasmi obtained_signature then .ok index
    else .error ()
  | none => .error ()

/-- Start a new process (processes.rs execute, lines 186-239): assign the
main thread id, build the state machine resolving imports through the
registered table, then insert the process under a fresh pid (the periodic
shrink of the map capacity has no observable effect). Returns the pid of the
process handle. -/
def ProcessesCollection.execute (c : ProcessesCollection TExtr TPud TTud)
    (module : Module) (proc_user_data : TPud) (main_thread_user_data : TTud) :
    Except NewErr (Nat × ProcessesCollection TExtr TPud TTud) :=
  let (main_thread_id, tid_pool2) := c.tid_pool.assign
  let main_thread_data : CollThread TTud :=
    { user_data := main_thread_user_data
      thread_id := main_thread_id
      value_back := some none }
  match MTStateMachine.new module main_thread_data
      (executeSymbols c.extrinsics_id_assign) with
  | .error e => .error e
  | .ok state_machine =>
    let (new_pid, pid_pool2) := c.pid_pool.assign
    .ok (new_pid,
      { c with
        tid_pool := tid_pool2
        pid_pool := pid_pool2
        processes := c.processes ++
          [(new_pid, { state_machine, user_data := proc_user_data })] })

/-- Outcome of one run call (processes.rs RunOneOutcome). The Interrupted
variant carries the interrupted thread handle as (pid, thread index within
the state machine) and the registered token the mutable reference points
at. -/
inductive RunOneOutcome (TExtr TPud TTud : Type) where
  | ProcessFinished (pid : Nat) (user_data : TPud)
      (dead_threads : List (Nat × TTud))
      (outcome : Except Trap (Option RuntimeValue))
  | ThreadFinished (thread_id : Nat) (pid : Nat) (user_data : TTud)
      (value : Option RuntimeValue)
  | Interrupted (pid : Nat) (thread_index : Nat) (token : TExtr)
      (params : List RuntimeValue)
  | Idle

/-- Run one thread amongst the collection (processes.rs run, lines 244-358):
pick the first process with a ready thread (Idle when none), take its
value_back, run the thread, and map the VM outcome: the main thread
finishing or any trap removes the whole process and reports ProcessFinished
(with the trapped case carrying Err and every thread's user data); another
thread finishing reports ThreadFinished; an interrupt reports Interrupted
with the registered token for the resolved index. A BadValueTy from the VM
is a panic, and a Poisoned error or a missing extrinsic entry is
unreachable. -/
def ProcessesCollection.run (c : ProcessesCollection TExtr TPud TTud) :
    PResult (RunOneOutcome TExtr TPud TTud × ProcessesCollection TExtr TPud TTud) :=
  match findReady c.processes with
  | none => .value (.Idle, c)
  | some (pid, inner_thread_index) =>
    match assocGet c.processes pid with
    | none => .panics
    | some proc =>
      match proc.state_machine.thread inner_thread_index with
      | none => .panics
      | some th =>
        match th.user_data.value_back with
        | none => .panics
        | some value_back =>
          -- value_back.take(): clear the field before running the thread
          let sm1 : MTStateMachine (CollThread TTud) :=
            { proc.state_machine with
              threads := proc.state_machine.threads.set inner_thread_index
                { th with user_data := { th.user_data with value_back := none } } }
          match sm1.runThread inner_thread_index value_back with
          | .panics => .panics
          | .value (.error _) => .panics
          | .value (.ok (outcome, sm2)) =>
            match outcome with
            | .ThreadFinished 0 return_value main_ud =>
              .value (.ProcessFinished pid proc.user_data
                ((main_ud.thread_id, main_ud.user_data) ::
                  (sm2.into_user_datas.map (fun t => (t.thread_id, t.user_data))))
                (.ok return_value),
                { c with processes := removeProcess c.processes pid })
            | .ThreadFinished _ return_value ud =>
              let procs2 := updateProcess c.processes pid
                { proc with state_machine := sm2 }
              .value (.ThreadFinished ud.thread_id pid ud.user_data return_value,
                { c with processes := procs2 })
            | .Interrupted _ id params =>
              match assocGet c.extrinsics id with
              | none => .panics
              | some token =>
                let procs2 := updateProcess c.processes pid
                  { proc with state_machine := sm2 }
                .value (.Interrupted pid inner_thread_index token params,
                  { c with processes := procs2 })
            | .Errored error _ =>
              .value (.ProcessFinished pid proc.user_data
                (sm2.into_user_datas.map (fun t => (t.thread_id, t.user_data)))
                (.error error),
                { c with processes := removeProcess c.processes pid })

/-- Process lookup (processes.rs process_by_id, lines 366-374); the returned
handle is identified by its pid. -/
def ProcessesCollection.process_by_id
    (c : ProcessesCollection TExtr TPud TTud) (pid : Nat) : Option Nat :=
  match assocGet c.processes pid with
  | none => none
  | some _ => some pid

/-- Add a new thread to a process (processes.rs
ProcessesCollectionProc::start_thread, lines 517-540): assign a thread id,
ask the state machine to start the thread, then build the returned thread
handle with thread_index set to the thread count AFTER the insertion. The
handle pid must exist (it comes from an occupied entry). -/
def ProcessesCollectionProc.start_thread
    (c : ProcessesCollection TExtr TPud TTud) (pid : Nat) (fn_index : Nat)
    (params : List RuntimeValue) (user_data : TTud) :
    PResult (Except StartErr (Nat × Nat) × ProcessesCollection TExtr TPud TTud) :=
  match assocGet c.processes pid with
  | none => .panics
  | some proc =>
    let (thread_id, tid_pool2) := c.tid_pool.assign
    let thread_data : CollThread TTud :=
      { user_data, thread_id, value_back := some none }
    match proc.state_machine.start_thread_by_id fn_index params thread_data with
    | .error e => .value (.error e, { c with tid_pool := tid_pool2 })
    | .ok sm2 =>
      let thread_index := sm2.num_threads
      let procs2 := updateProcess c.processes pid
        { proc with state_machine := sm2 }
      .value (.ok (pid, thread_index),
        { c with
          tid_pool := tid_pool2
          processes := procs2 })

/-- Thread-handle dereference (processes.rs ProcessesCollectionThread::inner,
lines 596-607): unwraps state_machine.thread(thread_index), panicking when
the index is out of range. -/
def ProcessesCollectionThread.inner
    (c : ProcessesCollection TExtr TPud TTud) (pid : Nat)
    (thread_index : Nat) : PResult (MTThread (CollThread TTud)) :=
  match assocGet c.processes pid with
  | none => .panics
  | some proc =>
    match proc.state_machine.thread thread_index with
    | none => .panics
    | some t => .value t

/-- Thread id of a thread handle (processes.rs
ProcessesCollectionThread::tid, lines 613-615). -/
def ProcessesCollectionThread.tid
    (c : ProcessesCollection TExtr TPud TTud) (pid : Nat)
    (thread_index : Nat) : PResult Nat :=
  match ProcessesCollectionThread.inner c pid thread_index with
  | .panics => .panics
  | .value t => .value t.user_data.thread_id

/-- Every thread of every process is suspended: value_back = None for all
(the negation of a ready thread existing anywhere). -/
def ProcessesCollection.allSuspended
    (c : ProcessesCollection TExtr TPud TTud) : Bool :=
  c.processes.all (fun e =>
    e.2.state_machine.threads.all (fun t => t.user_data.value_back.isNone))

/-! ## Concrete fixtures

Small modules and collections mirroring the unit tests of vm.rs and the
scenarios of the spec, used by the witness theorems. -/

/-- Function returning the constant 5 (vm.rs test modules). -/
def constMain : FuncDef :=
  { sig := ⟨[.i32, .i32], some .i32⟩
    body := fun _ => .ret (some (.I32 5)) }

/-- Module exporting `main` returning 5. -/
def modConst : Module :=
  { imports := [], exports := [("main", .func constMain)]
    functionTable := [constMain] }

/-- Module exporting only `foo` (spec scenario S2: no main). -/
def modNoMain : Module :=
  { imports := [], exports := [("foo", .func constMain)]
    functionTable := [constMain] }

/-- Module whose `main` export is a memory, not a function. -/
def modMainNotFunc : Module :=
  { imports := [], exports := [("main", .memory ⟨1, []⟩)]
    functionTable := [] }

/-- Function calling the first import and returning its result. -/
def callMain : FuncDef :=
  { sig := ⟨[.i32, .i32], some .i32⟩
    body := fun _ => .callImport 0 [] (fun v => .ret v) }

/-- Module importing `0iface`:`test` (a module name that fails base58
decoding, so it resolves as a plain-name interface) and calling it from
main. -/
def modCall : Module :=
  { imports := [⟨"0iface", "test", .func ⟨[], some .i32⟩⟩]
    exports := [("main", .func callMain)]
    functionTable := [callMain] }

/-- Same module but declaring the import with a mismatched signature. -/
def modCallBadSig : Module :=
  { imports := [⟨"0iface", "test", .func ⟨[], some .i64⟩⟩]
    exports := [("main", .func callMain)]
    functionTable := [callMain] }

/-- Resolution closure that always fails. -/
def noSymbols : InterfaceId → String → WasmiSignature → Except Unit Nat :=
  fun _ _ _ => .error ()

/-- Registered-function table holding `0iface`:`test` at token index 7. -/
def fixtureTable : List ((String × String) × (Nat × Signature)) :=
  [(("0iface", "test"), (7, ⟨[], some .i32⟩))]

/-- Collection with no processes, the token 9876 registered at index 7
(spec scenario S3). -/
def fixtureColl : ProcessesCollection Nat Nat Nat :=
  { pid_pool := IdPool.mk1, tid_pool := IdPool.mk1, processes := []
    extrinsics := [(7, 9876)]
    extrinsics_id_assign := fixtureTable }

/-- Stopped machine of a process without a memory export. -/
def noMemMachine : ProcessStateMachine :=
  { functionTable := [], resolution := fun _ => (0, none)
    memory := none, execution := none, is_poisoned := false }

/-- Machine of a process exporting one page of zeroed linear memory. -/
def onePageMachine : ProcessStateMachine :=
  { functionTable := [], resolution := fun _ => (0, none)
    memory := some ⟨1, List.replicate 65536 0⟩
    execution := none, is_poisoned := false }

/-! ## Theorems -/

/-- C7: for every module-name string presented at import resolution, a
successful base58 decoding into at most 32 bytes yields the Hash variant of
a 32-byte buffer holding the decoded bytes right-aligned behind a zero
prefix, and a failed decoding yields the Bytes variant holding the raw
string unchanged. -/
theorem C7_interface_name_parsing (s : String) :
    (∀ bytes, base58DecodeInto 32 s = some bytes →
      bytes.length ≤ 32 ∧
      parseInterfaceId s =
        InterfaceId.Hash (List.replicate (32 - bytes.length) 0 ++ bytes) ∧
      (List.replicate (32 - bytes.length) 0 ++ bytes).length = 32 ∧
      (List.replicate (32 - bytes.length) 0 ++ bytes).drop (32 - bytes.length)
        = bytes ∧
      (List.replicate (32 - bytes.length) 0 ++ bytes).take (32 - bytes.length)
        = List.replicate (32 - bytes.length) 0) ∧
    (base58DecodeInto 32 s = none → parseInterfaceId s = InterfaceId.Bytes s) := by
  constructor
  · intro bytes h
    have hlen : bytes.length ≤ 32 := by
      unfold base58DecodeInto at h
      cases hm : s.toList.mapM base58DigitValue with
      | none => rw [hm] at h; exact absurd h (by simp)
      | some ds =>
        rw [hm] at h
        simp only at h
        split at h
        · exact Option.some.inj h ▸ (by assumption)
        · exact absurd h (by simp)
    refine ⟨hlen, ?_, ?_, ?_, ?_⟩
    · unfold parseInterfaceId
      rw [h]
    · simp [hlen]
    · simp
    · simp
  · intro h
    unfold parseInterfaceId
    rw [h]

/-- C7 witness: the one-character string "z" decodes to the single byte 57
and parses as a right-aligned hash; the string "0z" contains a character
outside the base58 alphabet and parses as a raw name. -/
theorem C7_interface_name_parsing_witness :
    (base58DecodeInto 32 "z" = some [57] ∧
      parseInterfaceId "z" =
        InterfaceId.Hash (List.replicate (32 - [57].length) 0 ++ [57])) ∧
    (base58DecodeInto 32 "0z" = none ∧
      parseInterfaceId "0z" = InterfaceId.Bytes "0z") :=
  ⟨⟨by decide, ((C7_interface_name_parsing "z").1 [57] (by decide)).2.1⟩,
   ⟨by decide, (C7_interface_name_parsing "0z").2 (by decide)⟩⟩

/-- C10: on a process whose module exports no memory object, every call to
read_memory or write_memory panics (unwrap of None) instead of returning
Err. -/
theorem C10_no_memory_panics (m : ProcessStateMachine) (h : m.memory = none) :
    (∀ startBound endBound,
      m.read_memory startBound endBound = PResult.panics) ∧
    (∀ offset value, m.write_memory offset value = PResult.panics) := by
  constructor
  · intro sb eb
    unfold ProcessStateMachine.read_memory ProcessStateMachine.dma
    rw [h]
  · intro off v
    unfold ProcessStateMachine.write_memory
    rw [h]

/-- C10 witness: both accessors panic on the concrete memory-less machine. -/
theorem C10_no_memory_panics_witness :
    noMemMachine.read_memory (.included 0) (.excluded 2) = PResult.panics ∧
    noMemMachine.write_memory 16 [170, 187] = PResult.panics :=
  ⟨(C10_no_memory_panics noMemMachine rfl).1 _ _,
   (C10_no_memory_panics noMemMachine rfl).2 16 [170, 187]⟩

/-- C6: on a process with a linear memory of `pages` pages, reading the
range [off, off+n) succeeds exactly when off + n ≤ pages * 65536, returning
the n bytes at offset off, and fails on an out-of-range or inverted range;
writing n bytes at off succeeds exactly when off + n ≤ pages * 65536. -/
theorem C6_memory_bounds (m : ProcessStateMachine) (mem : MemoryObj)
    (hmem : m.memory = some mem)
    (hlen : mem.data.length = mem.pages * 65536) :
    (∀ off n, off + n ≤ mem.pages * 65536 →
      m.read_memory (.included off) (.excluded (off + n)) =
        .value (.ok ((mem.data.drop off).take n)) ∧
      ((mem.data.drop off).take n).length = n) ∧
    (∀ off n, off + n > mem.pages * 65536 →
      m.read_memory (.included off) (.excluded (off + n)) =
        .value (.error ())) ∧
    (∀ s e, e < s →
      m.read_memory (.included s) (.excluded e) = .value (.error ())) ∧
    (∀ off v, off + v.length ≤ mem.pages * 65536 →
      m.write_memory off v = .value (.ok { m with
        memory := some ⟨mem.pages,
          mem.data.take off ++ v ++ mem.data.drop (off + v.length)⟩ })) ∧
    (∀ off v, off + v.length > mem.pages * 65536 →
      m.write_memory off v = .value (.error ())) := by
  refine ⟨?_, ?_, ?_, ?_, ?_⟩
  · intro off n hin
    constructor
    · simp only [ProcessStateMachine.read_memory, ProcessStateMachine.dma, hmem]
      split
      · rename_i hcond
        rcases hcond with h | h
        · exact False.elim (by omega)
        · exact False.elim (by omega)
      · rw [Nat.add_sub_cancel_left]
    · simp only [List.length_take, List.length_drop, hlen]
      omega
  · intro off n hout
    simp only [ProcessStateMachine.read_memory, ProcessStateMachine.dma, hmem]
    split
    · rfl
    · rename_i hcond
      exact absurd (Or.inr hout) hcond
  · intro s e hinv
    simp only [ProcessStateMachine.read_memory, ProcessStateMachine.dma, hmem]
    split
    · rfl
    · rename_i hcond
      exact absurd (Or.inl hinv) hcond
  · intro off v hin
    simp only [ProcessStateMachine.write_memory, MemoryObj.set, hmem]
    rw [if_neg (show ¬(off + v.length > mem.pages * 65536) by omega)]
  · intro off v hout
    simp only [ProcessStateMachine.write_memory, MemoryObj.set, hmem]
    rw [if_pos hout]

/-- C6 witness: spec scenario S6 on a one-page memory: reading 2 bytes at
offset 16 succeeds with 2 bytes, reading 2 bytes at offset 65535 fails, as
does an inverted range, and writing 2 bytes at 65535 fails. -/
theorem C6_memory_bounds_witness :
    (onePageMachine.read_memory (.included 16) (.excluded 18) =
      .value (.ok (((List.replicate 65536 0 : List Nat).drop 16).take 2)) ∧
     (((List.replicate 65536 0 : List Nat).drop 16).take 2).length = 2) ∧
    onePageMachine.read_memory (.included 65535) (.excluded 65537) =
      .value (.error ()) ∧
    onePageMachine.read_memory (.included 3) (.excluded 1) =
      .value (.error ()) ∧
    onePageMachine.write_memory 65535 [170, 187] = .value (.error ()) := by
  have h := C6_memory_bounds onePageMachine ⟨1, List.replicate 65536 0⟩ rfl
    (by rw [List.length_replicate, Nat.one_mul])
  exact ⟨h.1 16 2 (by norm_num),
         h.2.1 65535 2 (by norm_num),
         h.2.2.1 3 1 (by norm_num),
         h.2.2.2.2 65535 [170, 187] (by norm_num)⟩

/-- C4: VM construction, given resolvable imports and a well-formed (or
absent) memory export: when `main` is an exported function the machine is
created paused at the entry of `main` with exactly the two i32 parameters
(0, 0) and is_executing() is true; when `main` is exported but is not a
function, construction fails with NewErr::MainIsntAFunction; when no `main`
export exists, construction succeeds stopped with no runnable thread
(is_executing() is false). -/
theorem C4_construction_main (module : Module)
    (symbols : InterfaceId → String → WasmiSignature → Except Unit Nat)
    (res : List (Nat × Option ValueType))
    (hres : resolveImports symbols module.imports = .ok res)
    (hmem : module.export_by_name "memory" = none ∨
      ∃ mm, module.export_by_name "memory" = some (.memory mm)) :
    (∀ f, module.export_by_name "main" = some (.func f) →
      ∃ m, ProcessStateMachine.new module symbols = .ok m ∧
        m.execution = some (.notStarted (instantiateBehavior (resolutionFn res)
          (f.body [RuntimeValue.I32 0, RuntimeValue.I32 0]))) ∧
        m.is_executing = true) ∧
    (∀ mm, module.export_by_name "main" = some (.memory mm) →
      ProcessStateMachine.new module symbols = .error .MainIsntAFunction) ∧
    (module.export_by_name "main" = some .otherExport →
      ProcessStateMachine.new module symbols = .error .MainIsntAFunction) ∧
    (module.export_by_name "main" = none →
      ∃ m, ProcessStateMachine.new module symbols = .ok m ∧
        m.execution = none ∧ m.is_executing = false) := by
  have hmain : ∀ r, module.export_by_name "main" = r →
      ProcessStateMachine.new module symbols =
        (match r with
          | some (.func f) =>
            .ok { functionTable := module.functionTable
                  resolution := resolutionFn res
                  memory := (match module.export_by_name "memory" with
                    | some (.memory mm) => some mm
                    | _ => none)
                  execution := some (.notStarted (instantiateBehavior
                    (resolutionFn res)
                    (f.body [RuntimeValue.I32 0, RuntimeValue.I32 0])))
                  is_poisoned := false }
          | none =>
            .ok { functionTable := module.functionTable
                  resolution := resolutionFn res
                  memory := (match module.export_by_name "memory" with
                    | some (.memory mm) => some mm
                    | _ => none)
                  execution := none
                  is_poisoned := false }
          | some _ => .error .MainIsntAFunction) := by
    intro r hr
    unfold ProcessStateMachine.new
    rw [hres]
    simp only
    rcases hmem with h | ⟨mm, h⟩ <;> rw [h] <;> simp only <;> rw [hr]
  refine ⟨?_, ?_, ?_, ?_⟩
  · intro f hf
    refine ⟨_, hmain _ hf, rfl, rfl⟩
  · intro mm hm
    exact hmain _ hm
  · intro ho
    exact hmain _ ho
  · intro hn
    refine ⟨_, hmain _ hn, rfl, rfl⟩

/-- C4 witness: the three construction outcomes on the concrete fixture
modules (main returning a constant, a memory exported under the name main,
and a module without main). -/
theorem C4_construction_main_witness :
    (∃ m, ProcessStateMachine.new modConst noSymbols = .ok m ∧
      m.execution = some (.notStarted (instantiateBehavior (resolutionFn [])
        (constMain.body [RuntimeValue.I32 0, RuntimeValue.I32 0]))) ∧
      m.is_executing = true) ∧
    ProcessStateMachine.new modMainNotFunc noSymbols =
      .error .MainIsntAFunction ∧
    (∃ m, ProcessStateMachine.new modNoMain noSymbols = .ok m ∧
      m.execution = none ∧ m.is_executing = false) :=
  ⟨(C4_construction_main modConst noSymbols [] rfl (Or.inl rfl)).1
      constMain rfl,
   (C4_construction_main modMainNotFunc noSymbols [] rfl (Or.inl rfl)).2.1
      ⟨1, []⟩ rfl,
   (C4_construction_main modNoMain noSymbols [] rfl (Or.inl rfl)).2.2.2 rfl⟩

/-- C3: at process creation an import (interface, function_name, engine_sig)
resolves to Ok(token_index) exactly when a registered entry under that
interface and function name exists whose signature matches the engine
signature; a missing entry and a signature mismatch produce the same Err,
which in turn makes execute fail with NewErr::Interpreter. -/
theorem C3_signature_gate
    (tbl : List ((String × String) × (Nat × Signature)))
    (interface : InterfaceId) (function : String)
    (engine_sig : WasmiSignature) :
    (∀ idx, executeSymbols tbl interface function engine_sig = .ok idx ↔
      ∃ s, extrinsicsAssignGet tbl (interfaceIdToKey interface, function) =
          some (idx, s) ∧ s.matches_wasmi engine_sig = true) ∧
    (extrinsicsAssignGet tbl (interfaceIdToKey interface, function) = none →
      executeSymbols tbl interface function engine_sig = .error ()) ∧
    (∀ idx s,
      extrinsicsAssignGet tbl (interfaceIdToKey interface, function) =
        some (idx, s) →
      s.matches_wasmi engine_sig = false →
      executeSymbols tbl interface function engine_sig = .error ()) ∧
    (∀ module_name field sig rest,
      executeSymbols tbl (parseInterfaceId module_name) field sig =
        .error () →
      resolveImports (executeSymbols tbl)
        ({ module_name, field_name := field, kind := .func sig } :: rest) =
        .error .Instantiation) ∧
    (∀ (TExtr TPud TTud : Type)
      (c : ProcessesCollection TExtr TPud TTud) (module : Module)
      (pud : TPud) (tud : TTud) (e : WasmiError),
      c.extrinsics_id_assign = tbl →
      resolveImports (executeSymbols tbl) module.imports = .error e →
      c.execute module pud tud = .error (.Interpreter e)) := by
  refine ⟨?_, ?_, ?_, ?_, ?_⟩
  · intro idx
    constructor
    · intro h
      unfold executeSymbols at h
      cases hget : extrinsicsAssignGet tbl (interfaceIdToKey interface, function) with
      | none =>
        rw [hget] at h
        exact absurd h (by simp)
      | some p =>
        obtain ⟨i, s⟩ := p
        rw [hget] at h
        simp only at h
        split at h
        · rename_i hm
          have hidx := Except.ok.inj h
          subst hidx
          exact ⟨s, rfl, hm⟩
        · exact absurd h (by simp)
    · rintro ⟨s, hget, hm⟩
      unfold executeSymbols
      rw [hget]
      simp [hm]
  · intro hget
    unfold executeSymbols
    rw [hget]
  · intro idx s hget hm
    unfold executeSymbols
    rw [hget]
    simp [hm]
  · intro module_name field sig rest hsym
    unfold resolveImports
    simp only
    rw [hsym]
  · intro TExtr TPud TTud c module pud tud e htbl hres
    unfold ProcessesCollection.execute MTStateMachine.new
    rw [htbl, hres]

/-- C3 witness: on the concrete registered table, the matching import
resolves to index 7, a mismatched signature and a missing entry both give
the unit Err, and execute on the mismatched module fails with
NewErr::Interpreter. -/
theorem C3_signature_gate_witness :
    executeSymbols fixtureTable (.Bytes "0iface") "test" ⟨[], some .i32⟩ =
      .ok 7 ∧
    executeSymbols fixtureTable (.Bytes "0iface") "test" ⟨[], some .i64⟩ =
      .error () ∧
    executeSymbols fixtureTable (.Bytes "0missing") "test" ⟨[], some .i32⟩ =
      .error () ∧
    fixtureColl.execute modCallBadSig 100 200 =
      .error (.Interpreter .Instantiation) :=
  ⟨((C3_signature_gate fixtureTable (.Bytes "0iface") "test"
      ⟨[], some .i32⟩).1 7).mpr ⟨⟨[], some .i32⟩, rfl, rfl⟩,
   (C3_signature_gate fixtureTable (.Bytes "0iface") "test"
      ⟨[], some .i64⟩).2.2.1 7 ⟨[], some .i32⟩ rfl rfl,
   (C3_signature_gate fixtureTable (.Bytes "0missing") "test"
      ⟨[], some .i32⟩).2.1 rfl,
   (C3_signature_gate fixtureTable (.Bytes "0iface") "test"
      ⟨[], some .i32⟩).2.2.2.2 Nat Nat Nat fixtureColl modCallBadSig
      100 200 .Instantiation rfl rfl⟩

/-- Collection holding one process whose single thread is suspended
(value_back = None, paused awaiting a host-call result). -/
def suspendedColl : ProcessesCollection Nat Nat Nat :=
  ⟨⟨2⟩, ⟨2⟩,
   [(1, ⟨⟨[], fun _ => (0, none), none,
      [⟨⟨0, 1, none⟩, .pausedAt none (fun _ => .finished none)⟩], false⟩, 0⟩)],
   [], []⟩

/-- Collection holding one process whose single thread is ready
(value_back = Some(None)). -/
def readyColl : ProcessesCollection Nat Nat Nat :=
  ⟨⟨2⟩, ⟨2⟩,
   [(1, ⟨⟨[], fun _ => (0, none), none,
      [⟨⟨0, 1, some none⟩, .notStarted (.finished none)⟩], false⟩, 0⟩)],
   [], []⟩

/-- Helper: a process has no ready thread exactly when every thread record
has value_back = None. -/
theorem ready_to_run_none_iff (p : Process TPud TTud) :
    p.ready_to_run_thread_index = none ↔
    ∀ t ∈ p.state_machine.threads, t.user_data.value_back.isNone = true := by
  unfold Process.ready_to_run_thread_index
  rw [List.findIdx?_eq_none_iff]
  constructor <;> intro h t ht <;> have h2 := h t ht <;> revert h2 <;>
    cases t.user_data.value_back <;> simp

/-- Helper: the selection loop of run finds nothing exactly when no process
has a ready thread. -/
theorem findReady_eq_none_iff (l : List (Nat × Process TPud TTud)) :
    findReady l = none ↔ ∀ e ∈ l, e.2.ready_to_run_thread_index = none := by
  induction l with
  | nil => simp [findReady]
  | cons e rest ih =>
    obtain ⟨pid, p⟩ := e
    unfold findReady
    cases h : p.ready_to_run_thread_index with
    | some i => simp [h]
    | none => simpa [h] using ih

/-- Helper: allSuspended is the complement of the selection loop finding a
ready thread. -/
theorem allSuspended_iff_findReady_none
    (c : ProcessesCollection TExtr TPud TTud) :
    c.allSuspended = true ↔ findReady c.processes = none := by
  rw [findReady_eq_none_iff]
  unfold ProcessesCollection.allSuspended
  rw [List.all_eq_true]
  constructor
  · intro h e he
    rw [ready_to_run_none_iff]
    intro t ht
    have h2 := h e he
    rw [List.all_eq_true] at h2
    exact h2 t ht
  · intro h e he
    rw [List.all_eq_true]
    intro t ht
    exact (ready_to_run_none_iff e.2).mp (h e he) t ht

/-- Helper: when the selection loop finds a ready thread, run never returns
Idle. -/
theorem run_not_idle (c : ProcessesCollection TExtr TPud TTud)
    (pid i : Nat) (h : findReady c.processes = some (pid, i)) :
    ∀ c2, c.run ≠ .value (.Idle, c2) := by
  intro c2 hrun
  unfold ProcessesCollection.run at hrun
  rw [h] at hrun
  dsimp only at hrun
  repeat' split at hrun
  all_goals try exact PResult.noConfusion hrun
  all_goals simp_all

/-- C5: run() on a collection returns Idle exactly when every thread of
every process has value_back = None, and an Idle outcome leaves the
collection unchanged. -/
theorem C5_idle_iff_no_ready (c : ProcessesCollection TExtr TPud TTud) :
    (c.run = .value (.Idle, c) ↔ c.allSuspended = true) ∧
    (∀ c2, c.run = .value (.Idle, c2) → c2 = c) := by
  have hidle : ∀ c2, c.run = .value (.Idle, c2) →
      findReady c.processes = none := by
    intro c2 hrun
    cases hfr : findReady c.processes with
    | none => rfl
    | some pi =>
      obtain ⟨pid, i⟩ := pi
      exact absurd hrun (run_not_idle c pid i hfr c2)
  constructor
  · constructor
    · intro hrun
      exact (allSuspended_iff_findReady_none c).mpr (hidle c hrun)
    · intro hsus
      have hnone := (allSuspended_iff_findReady_none c).mp hsus
      unfold ProcessesCollection.run
      rw [hnone]
  · intro c2 hrun
    have hnone := hidle c2 hrun
    unfold ProcessesCollection.run at hrun
    rw [hnone] at hrun
    exact (congrArg Prod.snd (PResult.value.inj hrun)).symm

/-- C5 witness: a collection holding one process whose single thread is
suspended is reported Idle unchanged, and adding a ready-thread process
makes run stop being Idle. -/
theorem C5_idle_iff_no_ready_witness :
    suspendedColl.run = .value (.Idle, suspendedColl) ∧
    (∀ c2, readyColl.run ≠ .value (.Idle, c2)) :=
  ⟨(C5_idle_iff_no_ready suspendedColl).1.mpr rfl,
   fun c2 h => by
     have hc := (C5_idle_iff_no_ready readyColl).2 c2 h
     subst hc
     have hs := (C5_idle_iff_no_ready readyColl).1.mp h
     exact absurd hs (by decide)⟩

/-- Helper: setting an existing index keeps get? defined at that index. -/
theorem get?_set_self (l : List α) (i : Nat) (a b : α)
    (h : l.get? i = some b) : (l.set i a).get? i = some a := by
  induction l generalizing i with
  | nil => simp at h
  | cons x xs ih =>
    cases i with
    | zero => rfl
    | succ n => exact ih n h

/-- Helper: the resolution list produced by resolveImports assigns, at the
position of each function import, exactly the index the closure returned for
it, paired with the import signature's result type. -/
theorem resolveImports_assigned
    (symbols : InterfaceId → String → WasmiSignature → Except Unit Nat) :
    ∀ (imports : List ModuleImport) (res : List (Nat × Option ValueType)),
      resolveImports symbols imports = .ok res →
      ∀ j imp sig idx, imports.get? j = some imp → imp.kind = .func sig →
        symbols (parseInterfaceId imp.module_name) imp.field_name sig =
          .ok idx →
        resolutionFn res j = (idx, sig.ret) := by
  intro imports
  induction imports with
  | nil =>
    intro res hres j imp sig idx hj
    simp at hj
  | cons imp0 rest ih =>
    intro res hres j imp sig idx hj hkind hsym
    unfold resolveImports at hres
    cases hk0 : imp0.kind with
    | func sig0 =>
      rw [hk0] at hres
      simp only at hres
      cases hs0 : symbols (parseInterfaceId imp0.module_name)
          imp0.field_name sig0 with
      | error e =>
        rw [hs0] at hres
        exact Except.noConfusion hres
      | ok i0 =>
        rw [hs0] at hres
        cases hr : resolveImports symbols rest with
        | error e =>
          rw [hr] at hres
          exact Except.noConfusion hres
        | ok tail =>
          rw [hr] at hres
          have hres2 := (Except.ok.inj hres).symm
          subst hres2
          cases j with
          | zero =>
            have himp := Option.some.inj hj
            subst himp
            rw [hkind] at hk0
            have hsig := (ImportKind.func.inj hk0).symm
            subst hsig
            rw [hsym] at hs0
            have hidx := (Except.ok.inj hs0).symm
            subst hidx
            rfl
          | succ j2 =>
            have hj2 : rest.get? j2 = some imp := hj
            exact ih tail hr j2 imp sig idx hj2 hkind hsym
    | globalImport =>
      rw [hk0] at hres
      exact Except.noConfusion hres
    | memoryImport =>
      rw [hk0] at hres
      exact Except.noConfusion hres
    | tableImport =>
      rw [hk0] at hres
      exact Except.noConfusion hres

/-- C1: for a paused thread whose next step calls an imported function,
resuming returns Interrupted carrying exactly the index that the
resolution closure assigned to that import together with the call's
argument values, the machine stays paused (is_executing remains true), and
at the collection level run() hands back the token registered at that index
together with the same parameters. -/
theorem C1_interrupted_import_call
    (symbols : InterfaceId → String → WasmiSignature → Except Unit Nat)
    (imports : List ModuleImport) (res : List (Nat × Option ValueType))
    (hres : resolveImports symbols imports = .ok res)
    (j : Nat) (imp : ModuleImport) (sig : WasmiSignature) (idx : Nat)
    (hj : imports.get? j = some imp) (hkind : imp.kind = .func sig)
    (hsym : symbols (parseInterfaceId imp.module_name) imp.field_name sig =
      .ok idx) :
    (∀ (m : ProcessStateMachine) (ty : Option ValueType)
      (bk : Option RuntimeValue → Behavior) (vb : Option RuntimeValue)
      (args : List RuntimeValue) (k2 : Option RuntimeValue → Behavior),
      m.execution = some (.pausedAt ty
        (fun v => instantiateBehavior (resolutionFn res) (bk v))) →
      vb.map RuntimeValue.value_type = ty →
      bk vb = .callImport j args k2 →
      ∃ m2, m.resume vb = .value (.ok (.Interrupted idx args), m2) ∧
        m2.is_executing = true) ∧
    (∀ (TExtr TPud TTud : Type) (c : ProcessesCollection TExtr TPud TTud)
      (pid i : Nat) (proc : Process TPud TTud)
      (th : MTThread (CollThread TTud)) (ty : Option ValueType)
      (bk : Option RuntimeValue → Behavior) (vb : Option RuntimeValue)
      (args : List RuntimeValue) (k2 : Option RuntimeValue → Behavior)
      (tok : TExtr),
      findReady c.processes = some (pid, i) →
      assocGet c.processes pid = some proc →
      proc.state_machine.thread i = some th →
      th.user_data.value_back = some vb →
      proc.state_machine.is_poisoned = false →
      th.execution = .pausedAt ty
        (fun v => instantiateBehavior (resolutionFn res) (bk v)) →
      vb.map RuntimeValue.value_type = ty →
      bk vb = .callImport j args k2 →
      assocGet c.extrinsics idx = some tok →
      ∃ c2, c.run = .value (.Interrupted pid i tok args, c2)) := by
  have hassign := resolveImports_assigned symbols imports res hres j imp sig
    idx hj hkind hsym
  constructor
  · intro m ty bk vb args k2 hexec hty hnext
    unfold ProcessStateMachine.resume
    rw [hexec]
    dsimp only
    rw [if_pos hty, hnext]
    unfold instantiateBehavior
    rw [hassign]
    exact ⟨_, rfl, rfl⟩
  · intro TExtr TPud TTud c pid i proc th ty bk vb args k2 tok hfind hget
      hth hvb hpoison hexec hty hnext htok
    unfold ProcessesCollection.run
    rw [hfind]
    dsimp only
    rw [hget]
    dsimp only
    rw [hth]
    dsimp only
    rw [hvb]
    dsimp only
    unfold MTStateMachine.runThread
    rw [hpoison]
    simp only [Bool.false_eq_true, if_false]
    unfold MTStateMachine.thread at hth
    rw [get?_set_self _ _ _ _ hth]
    dsimp only
    rw [hexec]
    dsimp only
    rw [if_pos hty, hnext]
    unfold instantiateBehavior
    rw [hassign]
    dsimp only
    rw [htok]
    exact ⟨_, rfl⟩

/-- Body shape of a thread paused just before calling import 0 and
returning the injected result afterwards. -/
def c1bk : Option RuntimeValue → Behavior :=
  fun _ => .callImport 0 [] (fun w => .ret w)

/-- Resolution list produced for modCall against the fixture table. -/
def c1res : List (Nat × Option ValueType) := [(7, some .i32)]

/-- Single-invocation machine paused at the import call of modCall. -/
def pausedImportMachine : ProcessStateMachine :=
  ⟨[callMain], resolutionFn c1res, none,
   some (.pausedAt (some .i32)
     (fun v => instantiateBehavior (resolutionFn c1res) (c1bk v))), false⟩

/-- Collection holding one process whose ready thread is paused at its
host call (that of modCall), with token 9876 registered at index 7. -/
def c1coll : ProcessesCollection Nat Nat Nat :=
  ⟨⟨2⟩, ⟨2⟩,
   [(1, ⟨⟨[callMain], resolutionFn c1res, none,
      [⟨⟨200, 1, some (some (.I32 2227))⟩,
        .pausedAt (some .i32)
          (fun v => instantiateBehavior (resolutionFn c1res) (c1bk v))⟩],
      false⟩, 100⟩)],
   [(7, 9876)], fixtureTable⟩

/-- C1 witness: resuming the concrete paused machine yields Interrupted
with index 7 and no parameters while staying executing, and run() on the
concrete collection hands back the registered token 9876. -/
theorem C1_interrupted_import_call_witness :
    (∃ m2, pausedImportMachine.resume (some (.I32 2227)) =
      .value (.ok (.Interrupted 7 []), m2) ∧ m2.is_executing = true) ∧
    (∃ c2, c1coll.run = .value (.Interrupted 1 0 9876 [], c2)) :=
  ⟨(C1_interrupted_import_call (executeSymbols fixtureTable) modCall.imports
      c1res rfl 0 ⟨"0iface", "test", .func ⟨[], some .i32⟩⟩
      ⟨[], some .i32⟩ 7 rfl rfl rfl).1 pausedImportMachine (some .i32) c1bk
      (some (.I32 2227)) [] (fun w => .ret w) rfl rfl rfl,
   (C1_interrupted_import_call (executeSymbols fixtureTable) modCall.imports
      c1res rfl 0 ⟨"0iface", "test", .func ⟨[], some .i32⟩⟩
      ⟨[], some .i32⟩ 7 rfl rfl rfl).2 Nat Nat Nat c1coll 1 0 _ _
      (some .i32) c1bk (some (.I32 2227)) [] (fun w => .ret w) 9876
      rfl rfl rfl rfl rfl rfl rfl rfl rfl⟩

/-- Helper: mapping a projection that is blind to the replaced component
over a set-at-index list gives the same result as over the original. -/
theorem map_set_eq_of_proj (l : List α) (i : Nat) (a b : α) (f : α → β)
    (hb : l.get? i = some b) (hf : f a = f b) :
    (l.set i a).map f = l.map f := by
  induction l generalizing i with
  | nil => rfl
  | cons x xs ih =>
    cases i with
    | zero =>
      have hx := Option.some.inj hb
      subst hx
      simp [hf]
    | succ n =>
      have := ih n hb
      simp [List.set, this]

/-- Helper: after removing a pid, lookup of that pid misses. -/
theorem assocGet_removeProcess (l : List (Nat × Process TPud TTud))
    (k : Nat) : assocGet (removeProcess l k) k = none := by
  unfold assocGet removeProcess
  induction l with
  | nil => rfl
  | cons e rest ih =>
    by_cases he : e.1 = k
    · have hd : decide (e.1 ≠ k) = false := by simp [he]
      simp only [List.filter, hd]
      exact ih
    · have hd : decide (e.1 ≠ k) = true := by simp [he]
      have hbeq : (e.1 == k) = false := by simp [he]
      simp only [List.filter, hd, List.find?, hbeq]
      exact ih

/-- C2: a thread trapping for any reason other than the host-call trap
poisons the VM (is_poisoned becomes true) and reports Errored; at the
collection level the whole process is removed, run() returns
ProcessFinished with Err(trap) carrying the process user data and the user
data of all its threads, and process_by_id on that pid subsequently returns
None. -/
theorem C2_trap_poisons_process (t : Trap) :
    (∀ (m : ProcessStateMachine) (vb : Option RuntimeValue),
      ((∃ ty k, m.execution = some (.pausedAt ty k) ∧
         vb.map RuntimeValue.value_type = ty ∧ k vb = .trapped t) ∨
       (∃ tree, m.execution = some (.notStarted tree) ∧ vb = none ∧
         tree = .trapped t)) →
      ∃ m2, m.resume vb = .value (.ok (.Errored t), m2) ∧
        m2.is_poisoned = true ∧ m2.is_executing = false) ∧
    (∀ (TExtr TPud TTud : Type) (c : ProcessesCollection TExtr TPud TTud)
      (pid i : Nat) (proc : Process TPud TTud)
      (th : MTThread (CollThread TTud)) (vb : Option RuntimeValue),
      findReady c.processes = some (pid, i) →
      assocGet c.processes pid = some proc →
      proc.state_machine.thread i = some th →
      th.user_data.value_back = some vb →
      proc.state_machine.is_poisoned = false →
      ((∃ ty k, th.execution = .pausedAt ty k ∧
         vb.map RuntimeValue.value_type = ty ∧ k vb = .trapped t) ∨
       (∃ tree, th.execution = .notStarted tree ∧ vb = none ∧
         tree = .trapped t)) →
      c.run = .value (.ProcessFinished pid proc.user_data
          (proc.state_machine.threads.map
            (fun th2 => (th2.user_data.thread_id, th2.user_data.user_data)))
          (.error t),
        { c with processes := removeProcess c.processes pid }) ∧
      ProcessesCollection.process_by_id
        { c with processes := removeProcess c.processes pid } pid = none) := by
  constructor
  · intro m vb hstep
    rcases hstep with ⟨ty, k, hexec, hty, hk⟩ | ⟨tree, hexec, hvbn, htree⟩
    · unfold ProcessStateMachine.resume
      rw [hexec]
      dsimp only
      rw [if_pos hty, hk]
      exact ⟨_, rfl, rfl, rfl⟩
    · subst hvbn
      subst htree
      unfold ProcessStateMachine.resume
      rw [hexec]
      exact ⟨_, rfl, rfl, rfl⟩
  · intro TExtr TPud TTud c pid i proc th vb hfind hget hth hvb hpoison hstep
    have hmain : c.run = .value (.ProcessFinished pid proc.user_data
        (proc.state_machine.threads.map
          (fun th2 => (th2.user_data.thread_id, th2.user_data.user_data)))
        (.error t),
        { c with processes := removeProcess c.processes pid }) := by
      have hdead : ∀ th2 : MTThread (CollThread TTud),
          th2.user_data.user_data = th.user_data.user_data →
          th2.user_data.thread_id = th.user_data.thread_id →
          ((proc.state_machine.threads.set i th2).map
              (fun mt => mt.user_data)).map
            (fun ud => (ud.thread_id, ud.user_data)) =
          proc.state_machine.threads.map
            (fun th2 => (th2.user_data.thread_id, th2.user_data.user_data)) := by
        intro th2 hud htid
        rw [List.map_map]
        rw [map_set_eq_of_proj _ i th2 th _ hth
          (by simp [Function.comp, hud, htid])]
        rfl
      unfold ProcessesCollection.run
      rw [hfind]
      dsimp only
      rw [hget]
      dsimp only
      rw [hth]
      dsimp only
      rw [hvb]
      dsimp only
      unfold MTStateMachine.runThread
      rw [hpoison]
      simp only [Bool.false_eq_true, if_false]
      unfold MTStateMachine.thread at hth
      rw [get?_set_self _ _ _ _ hth]
      dsimp only
      rcases hstep with ⟨ty, k, hexec, hty, hk⟩ | ⟨tree, hexec, hvbn, htree⟩
      · rw [hexec]
        dsimp only
        rw [if_pos hty, hk]
        dsimp only
        unfold MTStateMachine.into_user_datas
        dsimp only
        rw [hdead ⟨⟨th.user_data.user_data, th.user_data.thread_id, none⟩,
          .pausedAt ty k⟩ rfl rfl]
      · subst hvbn
        rw [hexec]
        dsimp only
        rw [htree]
        dsimp only
        unfold MTStateMachine.into_user_datas
        dsimp only
        rw [hdead ⟨⟨th.user_data.user_data, th.user_data.thread_id, none⟩,
          .notStarted (.trapped t)⟩ rfl rfl]
    refine ⟨hmain, ?_⟩
    unfold ProcessesCollection.process_by_id
    rw [assocGet_removeProcess]

/-- Function whose body executes an unreachable instruction (vm.rs
poisoning test, spec scenario S4). -/
def trapMain : FuncDef :=
  { sig := ⟨[.i32, .i32], some .i32⟩
    body := fun _ => .trap .unreachableInstr }

/-- Machine about to execute an unreachable instruction (spec scenario S4
at the VM level). -/
def trapMachine : ProcessStateMachine :=
  ⟨[trapMain], resolutionFn [], none,
   some (.notStarted (.trapped .unreachableInstr)), false⟩

/-- Collection with one process whose ready main thread is about to execute
an unreachable instruction. -/
def trapColl : ProcessesCollection Nat Nat Nat :=
  ⟨⟨2⟩, ⟨2⟩,
   [(1, ⟨⟨[trapMain], resolutionFn [], none,
      [⟨⟨200, 1, some none⟩, .notStarted (.trapped .unreachableInstr)⟩],
      false⟩, 100⟩)],
   [], []⟩

/-- C2 witness: spec scenario S4 on the concrete fixtures: resuming the
trapping machine poisons it and reports Errored; run() on the collection
removes the process, returns Err(trap) with both user data, and the pid no
longer resolves. -/
theorem C2_trap_poisons_process_witness :
    (∃ m2, trapMachine.resume none =
      .value (.ok (.Errored .unreachableInstr), m2) ∧
      m2.is_poisoned = true ∧ m2.is_executing = false) ∧
    (trapColl.run = .value (.ProcessFinished 1 100 [(1, 200)]
        (.error .unreachableInstr),
      { trapColl with processes := removeProcess trapColl.processes 1 }) ∧
     ProcessesCollection.process_by_id
       { trapColl with processes := removeProcess trapColl.processes 1 } 1 =
       none) :=
  ⟨(C2_trap_poisons_process .unreachableInstr).1 trapMachine none
     (Or.inr ⟨.trapped .unreachableInstr, rfl, rfl, rfl⟩),
   (C2_trap_poisons_process .unreachableInstr).2 Nat Nat Nat trapColl 1 0
     ⟨⟨[trapMain], resolutionFn [], none,
       [⟨⟨200, 1, some none⟩, .notStarted (.trapped .unreachableInstr)⟩],
       false⟩, 100⟩
     ⟨⟨200, 1, some none⟩, .notStarted (.trapped .unreachableInstr)⟩ none
     rfl rfl rfl rfl rfl
     (Or.inr ⟨.trapped .unreachableInstr, rfl, rfl, rfl⟩)⟩

/-- Function taking no parameters and returning nothing, used as the target
of start_thread. -/
def unitFn : FuncDef :=
  { sig := ⟨[], none⟩, body := fun _ => .ret none }

/-- Collection with one thread-less process (as produced by executing a
module without main: the main thread id 1 was consumed from the pool but no
thread exists) whose module's function table holds unitFn at index 0. -/
def c9base : ProcessesCollection Nat Nat Nat :=
  ⟨⟨2⟩, ⟨2⟩,
   [(1, ⟨⟨[unitFn], fun _ => (0, none), none, [], false⟩, 100⟩)],
   [], []⟩

/-- C9: start_thread on the concrete process succeeds but builds the
returned handle with thread_index = num_threads counted AFTER the insertion
(processes.rs line 535): the handle says index 1 while the only thread of
the machine sits at index 0 (whose tid is the freshly assigned id 2), so
tid() on the returned handle panics (the unreachable unwrap in inner())
instead of returning the fresh ThreadId. -/
theorem C9_start_thread_handle_panics :
    ∃ c2, ProcessesCollectionProc.start_thread c9base 1 0 [] 300 =
        .value (.ok (1, 1), c2) ∧
      ProcessesCollectionThread.tid c2 1 1 = .panics ∧
      ProcessesCollectionThread.tid c2 1 0 = .value 2 :=
  ⟨_, rfl, rfl, rfl⟩

/-- Function table entry of the starvation scenario: a worker that returns
immediately. -/
def starveFn : FuncDef :=
  { sig := ⟨[], none⟩, body := fun _ => .ret none }

/-- Process at pid 1 of the starvation trace at step n: its main thread is
suspended forever (awaiting a host-call answer that never comes) and a
fresh ready worker thread (tid n+3) exists at index 1. -/
def starveP1 (n : Nat) : Process Nat Nat :=
  ⟨⟨[starveFn], fun _ => (0, none), none,
    [⟨⟨10, 1, none⟩, .pausedAt none (fun _ => .finished none)⟩,
     ⟨⟨0, n + 3, some none⟩, .notStarted (.finished none)⟩], false⟩, 100⟩

/-- Process at pid 2 of the starvation trace: its main thread is ready at
every step and is never selected. -/
def starveP2 : Process Nat Nat :=
  ⟨⟨[], fun _ => (0, none), none,
    [⟨⟨20, 2, some none⟩, .notStarted (.finished none)⟩], false⟩, 200⟩

/-- Collection state of the starvation trace at step n. -/
def starveState (n : Nat) : ProcessesCollection Nat Nat Nat :=
  ⟨⟨3⟩, ⟨n + 4⟩, [(1, starveP1 n), (2, starveP2)], [], []⟩

/-- C8: starvation is possible under the deterministic selection of run()
(the shuffle of the entries is commented out at processes.rs line 248): in
the infinite execution starveState 0, starveState 1, ... — where after each
run() the driver starts one fresh thread in the first process — the ready
thread of pid 2 is passed over at every step: the selection always picks
pid 1's worker, the worker finishes, and the driver's start_thread
re-establishes the same shape, so pid 2's thread stays ready forever and is
never the one selected. -/
theorem C8_starvation_trace (n : Nat) :
    Process.ready_to_run_thread_index starveP2 = some 0 ∧
    findReady (starveState n).processes = some (1, 1) ∧
    ∃ cMid, ProcessesCollection.run (starveState n) =
        .value (.ThreadFinished (n + 3) 1 0 none, cMid) ∧
      ∃ h, ProcessesCollectionProc.start_thread cMid 1 0 [] 0 =
        .value (.ok h, starveState (n + 1)) :=
  ⟨rfl, rfl, _, rfl, (1, 2), rfl⟩

end Redshirt
